import Mathlib

/-!
Verification of the feed builder in `src/pages/rss.xml.ts`.

The endpoint `GET` reads the blog collection with the predicate
`({ data }) => data.draft !== true`, sorts the result with the comparator
`(a, b) => b.data.pubDate.valueOf() - a.data.pubDate.valueOf()`
(JavaScript `Array.prototype.sort`, which is a stable sort), and calls the
external serializer `rss` with fixed feed metadata, the site
`context.site || "https://blog.l3s.me"`, the projected items, and
`customData: <language>en-us</language>`.

Dates are modelled by their `valueOf()` millisecond timestamps (`Int`).
The optional frontmatter flag `draft` is an `Option Bool`; the comparison
`data.draft !== true` keeps a post exactly when `draft ≠ some true`.
The content collection schema (the file that makes `pubDate` a required
field) is not among the sources, so the required-field validation of the
content store is modelled from the spec; see `validatePosts`.
-/

namespace RssFeed

/-- A raw post record as provided by the content store: frontmatter data
plus the slug. `pubDate` is optional here so that the required-field
invariant of the content store can be stated and checked. -/
structure Post where
  slug : String
  title : String
  description : String
  pubDate : Option Int
  tags : List String
  draft : Option Bool
  deriving DecidableEq, Repr

/-- A post that passed the required-field validation: `pubDate` is present. -/
structure ValidPost where
  slug : String
  title : String
  description : String
  pubDate : Int
  tags : List String
  deriving DecidableEq, Repr

/-- One item of the feed, as passed to the serializer in `rss.xml.ts`. -/
structure RSSItem where
  title : String
  description : String
  pubDate : Int
  link : String
  categories : List String
  deriving DecidableEq, Repr

/-- The feed document handed to the external serializer: the argument of
the `rss(...)` call in `rss.xml.ts`. -/
structure FeedDocument where
  title : String
  description : String
  site : String
  items : List RSSItem
  customData : String
  deriving DecidableEq, Repr

/-- The error taxonomy of the specification. -/
inductive FeedError where
  | ConfigurationError
  | DataError
  deriving DecidableEq, Repr

/-- The collection filter of `rss.xml.ts`: `({ data }) => data.draft !== true`. -/
def keepPost (p : Post) : Bool :=
  p.draft ≠ some true

/-- Modelled from the spec: the required-field validation performed by the
content store (its schema file is not among the sources). Every retained
post must carry a `publicationDate`; if one lacks it, the whole
feed-generation call fails with a `DataError` instead of silently omitting
the offending post. -/
def validatePosts : List Post → Except FeedError (List ValidPost)
  | [] => .ok []
  | p :: rest =>
    match p.pubDate with
    | none => .error .DataError
    | some d =>
      match validatePosts rest with
      | .error e => .error e
      | .ok vs => .ok (⟨p.slug, p.title, p.description, d, p.tags⟩ :: vs)

/-- The order used by the sort in `rss.xml.ts`: the comparator
`(a, b) => b.data.pubDate.valueOf() - a.data.pubDate.valueOf()` places `a`
no later than `b` exactly when that difference is `≤ 0`, i.e. when
`b.pubDate ≤ a.pubDate` (descending by publication date). -/
def pubDateDescLE (a b : ValidPost) : Prop :=
  b.pubDate ≤ a.pubDate

instance : DecidableRel pubDateDescLE := fun a b =>
  inferInstanceAs (Decidable (b.pubDate ≤ a.pubDate))

instance : IsTotal ValidPost pubDateDescLE :=
  ⟨fun a b => le_total b.pubDate a.pubDate⟩

instance : IsTrans ValidPost pubDateDescLE :=
  ⟨fun _ _ _ hab hbc => le_trans hbc hab⟩

/-- The sort step: `blog.sort(comparator)`. JavaScript
`Array.prototype.sort` is stable (ECMAScript 2019), and the output of a
stable sort is uniquely determined by the comparator, so it is modelled by
the stable `List.insertionSort`. -/
def sortPosts (l : List ValidPost) : List ValidPost :=
  l.insertionSort pubDateDescLE

/-- The item projection of `rss.xml.ts`: title, description and pubDate are
copied, `link` is the template literal built from the slug, and
`categories` is the tags list. -/
def toItem (p : ValidPost) : RSSItem :=
  { title := p.title
    description := p.description
    pubDate := p.pubDate
    link := "/blog/" ++ p.slug ++ "/"
    categories := p.tags }

/-- The site resolution `context.site || "https://blog.l3s.me"`: the
fallback is used when `context.site` is absent or falsy (empty string). -/
def resolveSite (contextSite : Option String) : String :=
  match contextSite with
  | none => "https://blog.l3s.me"
  | some s => if s = "" then "https://blog.l3s.me" else s

/-- The feed title passed to `rss(...)`. -/
def feedTitle : String := "Lucas William Bateson - Blog"

/-- The feed description passed to `rss(...)`. -/
def feedDescription : String :=
  "Personal blog and project log - thoughts on development, technology, and building things."

/-- The `customData` string passed to `rss(...)`. -/
def feedCustomData : String := "<language>en-us</language>"

/-- The endpoint `GET` of `rss.xml.ts`: filter out drafts, validate the
required `pubDate` field (modelled from the spec, see `validatePosts`),
sort descending by publication date, and build the feed document handed to
the serializer. -/
def GET (allPosts : List Post) (contextSite : Option String) :
    Except FeedError FeedDocument :=
  let blog := allPosts.filter keepPost
  match validatePosts blog with
  | .error e => .error e
  | .ok valid =>
    let sortedPosts := sortPosts valid
    .ok
      { title := feedTitle
        description := feedDescription
        site := resolveSite contextSite
        items := sortedPosts.map toItem
        customData := feedCustomData }

/-! ### Helper lemmas about the validation and sort steps -/

/-- Validation fails with `DataError` whenever some post in the list lacks
a publication date. -/
theorem validatePosts_error_of_missing (l : List Post)
    (h : ∃ p ∈ l, p.pubDate = none) :
    validatePosts l = .error .DataError := by
  induction l with
  | nil => simp at h
  | cons p rest ih =>
    rcases h with ⟨q, hq, hnone⟩
    rcases List.mem_cons.mp hq with rfl | hmem
    · simp [validatePosts, hnone]
    · cases hp : p.pubDate with
      | none => simp [validatePosts, hp]
      | some d => simp [validatePosts, hp, ih ⟨q, hmem, hnone⟩]

/-- Validation succeeds when every post in the list has a publication date. -/
theorem validatePosts_ok_of_all (l : List Post)
    (h : ∀ p ∈ l, p.pubDate ≠ none) :
    ∃ vs, validatePosts l = .ok vs := by
  induction l with
  | nil => exact ⟨[], rfl⟩
  | cons p rest ih =>
    cases hp : p.pubDate with
    | none => exact absurd hp (h p (List.mem_cons_self p rest))
    | some d =>
      obtain ⟨vs, hvs⟩ := ih (fun q hq => h q (List.mem_cons_of_mem p hq))
      refine ⟨⟨p.slug, p.title, p.description, d, p.tags⟩ :: vs, ?_⟩
      simp [validatePosts, hp, hvs]

/-- Validation preserves the number of posts. -/
theorem validatePosts_ok_length (l : List Post) (vs : List ValidPost)
    (h : validatePosts l = .ok vs) : vs.length = l.length := by
  induction l generalizing vs with
  | nil => simp [validatePosts] at h; simp [← h]
  | cons p rest ih =>
    cases hp : p.pubDate with
    | none => simp [validatePosts, hp] at h
    | some d =>
      cases hrest : validatePosts rest with
      | error e => simp [validatePosts, hp, hrest] at h
      | ok ws =>
        simp [validatePosts, hp, hrest] at h
        simp [← h, ih ws hrest]

/-- Every validated post originates from a post of the input list, with all
fields copied and the publication date unwrapped. -/
theorem validatePosts_ok_mem (l : List Post) (vs : List ValidPost)
    (h : validatePosts l = .ok vs) (v : ValidPost) (hv : v ∈ vs) :
    ∃ p ∈ l, p.pubDate = some v.pubDate ∧ v.slug = p.slug ∧
      v.title = p.title ∧ v.description = p.description ∧ v.tags = p.tags := by
  induction l generalizing vs with
  | nil => simp [validatePosts] at h; subst h; simp at hv
  | cons p rest ih =>
    cases hp : p.pubDate with
    | none => simp [validatePosts, hp] at h
    | some d =>
      cases hrest : validatePosts rest with
      | error e => simp [validatePosts, hp, hrest] at h
      | ok ws =>
        simp [validatePosts, hp, hrest] at h
        subst h
        rcases List.mem_cons.mp hv with rfl | hmem
        · exact ⟨p, List.mem_cons_self p rest, hp, rfl, rfl, rfl, rfl⟩
        · obtain ⟨q, hq, hrest'⟩ := ih ws hrest hmem
          exact ⟨q, List.mem_cons_of_mem p hq, hrest'⟩

/-- Every post of a successfully validated list contributes a validated
post, with all fields copied and the publication date unwrapped. -/
theorem validatePosts_mem_ok (l : List Post) (vs : List ValidPost)
    (h : validatePosts l = .ok vs) (p : Post) (hp : p ∈ l) :
    ∃ v ∈ vs, p.pubDate = some v.pubDate ∧ v.slug = p.slug ∧
      v.title = p.title ∧ v.description = p.description ∧ v.tags = p.tags := by
  induction l generalizing vs with
  | nil => simp at hp
  | cons q rest ih =>
    cases hq : q.pubDate with
    | none => simp [validatePosts, hq] at h
    | some d =>
      cases hrest : validatePosts rest with
      | error e => simp [validatePosts, hq, hrest] at h
      | ok ws =>
        simp [validatePosts, hq, hrest] at h
        subst h
        rcases List.mem_cons.mp hp with rfl | hmem
        · exact ⟨⟨p.slug, p.title, p.description, d, p.tags⟩,
            List.mem_cons_self _ _, hq, rfl, rfl, rfl, rfl⟩
        · obtain ⟨v, hv, hrest'⟩ := ih ws hrest hmem
          exact ⟨v, List.mem_cons_of_mem _ hv, hrest'⟩

/-- Validation never reports a `ConfigurationError`: its only failure mode
is the missing publication date. -/
theorem validatePosts_error_eq (l : List Post) (e : FeedError)
    (h : validatePosts l = .error e) : e = .DataError := by
  induction l generalizing e with
  | nil => simp [validatePosts] at h
  | cons p rest ih =>
    cases hp : p.pubDate with
    | none =>
      simp [validatePosts, hp] at h
      exact h.symm
    | some d =>
      cases hrest : validatePosts rest with
      | error e2 =>
        simp [validatePosts, hp, hrest] at h
        exact h ▸ ih e2 hrest
      | ok ws => simp [validatePosts, hp, hrest] at h

/-- Stability of the sort step: for any fixed date, the posts carrying that
date appear in the sorted output in exactly the order in which the input
list provided them. -/
theorem sortPosts_filter_eq (l : List ValidPost) (d : Int) :
    (sortPosts l).filter (fun p => decide (p.pubDate = d)) =
      l.filter (fun p => decide (p.pubDate = d)) := by
  have hperm : List.Perm ((sortPosts l).filter (fun p => decide (p.pubDate = d)))
      (l.filter (fun p => decide (p.pubDate = d))) :=
    (List.perm_insertionSort pubDateDescLE l).filter _
  have hpair : (l.filter (fun p => decide (p.pubDate = d))).Pairwise pubDateDescLE := by
    apply List.pairwise_of_forall_mem_list
    intro a ha b hb
    have ha' := List.of_mem_filter ha
    have hb' := List.of_mem_filter hb
    simp only [decide_eq_true_eq] at ha' hb'
    unfold pubDateDescLE
    rw [ha', hb']
  have hsub : List.Sublist (l.filter (fun p => decide (p.pubDate = d))) (sortPosts l) :=
    List.sublist_insertionSort hpair (List.filter_sublist l)
  have hsubB := hsub.filter (fun p => decide (p.pubDate = d))
  rw [List.filter_eq_self.mpr (fun a ha => (List.mem_filter.mp ha).2)] at hsubB
  exact (hsubB.eq_of_length hperm.length_eq.symm).symm

/-- A successful run of `GET` is exactly a successful validation of the
retained posts followed by the sort and the projection. -/
theorem GET_ok_iff (posts : List Post) (site : Option String)
    (doc : FeedDocument) :
    GET posts site = .ok doc ↔
      ∃ valid, validatePosts (posts.filter keepPost) = .ok valid ∧
        doc = { title := feedTitle
                description := feedDescription
                site := resolveSite site
                items := (sortPosts valid).map toItem
                customData := feedCustomData } := by
  unfold GET
  cases hv : validatePosts (posts.filter keepPost) with
  | error e => simp [hv]
  | ok valid => simp [hv, eq_comm]

/-! ### Concrete sample inputs used to instantiate the theorems -/

/-- A concrete published post with date 100. -/
def samplePostA : Post :=
  { slug := "heat-map", title := "A", description := "da",
    pubDate := some 100, tags := ["x"], draft := none }

/-- A concrete published post with date 200. -/
def samplePostB : Post :=
  { slug := "ingest-app", title := "B", description := "db",
    pubDate := some 200, tags := [], draft := some false }

/-- A concrete draft post. -/
def samplePostDraft : Post :=
  { slug := "draft-post", title := "C", description := "dc",
    pubDate := some 150, tags := [], draft := some true }

/-- A concrete post lacking a publication date. -/
def samplePostNoDate : Post :=
  { slug := "no-date", title := "N", description := "dn",
    pubDate := none, tags := [], draft := none }

/-- A concrete post sharing the date of `samplePostX`. -/
def samplePostX : Post :=
  { slug := "x-post", title := "X", description := "dx",
    pubDate := some 100, tags := [], draft := none }

/-- A concrete post sharing the date of `samplePostX`. -/
def samplePostY : Post :=
  { slug := "y-post", title := "Y", description := "dy",
    pubDate := some 100, tags := [], draft := none }

/-- The feed document produced for the single retained post `samplePostA`. -/
def sampleDocA : FeedDocument :=
  { title := feedTitle
    description := feedDescription
    site := "https://blog.l3s.me"
    items := [{ title := "A", description := "da", pubDate := 100,
                link := "/blog/heat-map/", categories := ["x"] }]
    customData := feedCustomData }

/-- The feed document produced for the retained posts `samplePostA` and
`samplePostB` (date 200 before date 100). -/
def sampleDocAB : FeedDocument :=
  { title := feedTitle
    description := feedDescription
    site := "https://blog.l3s.me"
    items := [{ title := "B", description := "db", pubDate := 200,
                link := "/blog/ingest-app/", categories := [] },
              { title := "A", description := "da", pubDate := 100,
                link := "/blog/heat-map/", categories := ["x"] }]
    customData := feedCustomData }

/-- The validated posts for the tie sample, in content-store order. -/
def sampleValidXY : List ValidPost :=
  [⟨"x-post", "X", "dx", 100, []⟩, ⟨"y-post", "Y", "dy", 100, []⟩]

/-- The feed document produced for the tie sample: source order preserved. -/
def sampleDocXY : FeedDocument :=
  { title := feedTitle
    description := feedDescription
    site := "https://blog.l3s.me"
    items := [{ title := "X", description := "dx", pubDate := 100,
                link := "/blog/x-post/", categories := [] },
              { title := "Y", description := "dy", pubDate := 100,
                link := "/blog/y-post/", categories := [] }]
    customData := feedCustomData }

/-- The feed document produced for an empty retained set with no site. -/
def sampleDocEmpty : FeedDocument :=
  { title := feedTitle
    description := feedDescription
    site := "https://blog.l3s.me"
    items := []
    customData := feedCustomData }

/-! ### The claims -/

/-- C1 counterexample: with `siteUrl` missing (`context.site` undefined)
the operation does not fail with a `ConfigurationError`: it succeeds and
returns a complete feed document carrying the fallback site, and the same
holds for the empty string. -/
theorem C1_counterexample :
    GET [] none = Except.ok sampleDocEmpty ∧
    GET [] (some "") ≠ Except.error FeedError.ConfigurationError := by
  refine ⟨rfl, ?_⟩
  have h2 : GET [] (some "") = Except.ok sampleDocEmpty := rfl
  simp [h2]

/-- C1 (amended): if `siteUrl` is missing or the empty string, the
operation does not fail with a `ConfigurationError`; instead the fallback
site `https://blog.l3s.me` is substituted, and any document returned
carries it. -/
theorem C1_siteUrl_fallback (posts : List Post) (contextSite : Option String)
    (hfalsy : contextSite = none ∨ contextSite = some "") :
    GET posts contextSite ≠ Except.error FeedError.ConfigurationError ∧
    ∀ doc, GET posts contextSite = Except.ok doc →
      doc.site = "https://blog.l3s.me" := by
  constructor
  · intro hcontra
    cases hv : validatePosts (posts.filter keepPost) with
    | error e =>
      have he := validatePosts_error_eq _ _ hv
      subst he
      simp [GET, hv] at hcontra
    | ok valid =>
      simp [GET, hv] at hcontra
  · intro doc hdoc
    obtain ⟨valid, hv, rfl⟩ := (GET_ok_iff posts contextSite doc).mp hdoc
    rcases hfalsy with rfl | rfl <;> simp [resolveSite]

/-- Witness for C1 (amended) at the concrete input `[samplePostA]` with
the site absent. -/
theorem C1_siteUrl_fallback_witness :
    ((none : Option String) = none ∨ (none : Option String) = some "") ∧
    (GET [samplePostA] none ≠ Except.error FeedError.ConfigurationError ∧
     ∀ doc, GET [samplePostA] none = Except.ok doc →
       doc.site = "https://blog.l3s.me") :=
  ⟨Or.inl rfl, C1_siteUrl_fallback [samplePostA] none (Or.inl rfl)⟩

/-- C2: if any retained (non-draft) post lacks a publication date, the
whole feed-generation call fails with a `DataError`; no document is
returned. -/
theorem C2_missing_pubDate_dataError (posts : List Post) (site : Option String)
    (h : ∃ p ∈ posts, p.draft ≠ some true ∧ p.pubDate = none) :
    GET posts site = Except.error FeedError.DataError := by
  obtain ⟨p, hp, hdraft, hnone⟩ := h
  have hmem : p ∈ posts.filter keepPost :=
    List.mem_filter.mpr ⟨hp, by simpa [keepPost] using hdraft⟩
  have hv := validatePosts_error_of_missing _ ⟨p, hmem, hnone⟩
  simp [GET, hv]

/-- Witness for C2 at the concrete input `[samplePostNoDate]`. -/
theorem C2_missing_pubDate_dataError_witness :
    (∃ p ∈ [samplePostNoDate], p.draft ≠ some true ∧ p.pubDate = none) ∧
    GET [samplePostNoDate] none = Except.error FeedError.DataError :=
  ⟨⟨samplePostNoDate, List.mem_cons_self _ _, by decide, rfl⟩,
   C2_missing_pubDate_dataError [samplePostNoDate] none
     ⟨samplePostNoDate, List.mem_cons_self _ _, by decide, rfl⟩⟩

/-- C3: no entry of the output originates from a draft post: every item of
the returned document is the projection of an input post whose `draft`
flag is not `true`. -/
theorem C3_no_draft_entries (posts : List Post) (site : Option String)
    (doc : FeedDocument) (h : GET posts site = Except.ok doc) :
    ∀ e ∈ doc.items, ∃ p ∈ posts, p.draft ≠ some true ∧
      p.pubDate = some e.pubDate ∧ e.title = p.title ∧
      e.description = p.description ∧
      e.link = "/blog/" ++ p.slug ++ "/" ∧ e.categories = p.tags := by
  obtain ⟨valid, hv, rfl⟩ := (GET_ok_iff posts site doc).mp h
  intro e he
  simp only [List.mem_map] at he
  obtain ⟨v, hvmem, rfl⟩ := he
  have hvmem2 : v ∈ valid := by
    unfold sortPosts at hvmem
    exact (List.mem_insertionSort pubDateDescLE).mp hvmem
  obtain ⟨p, hpmem, hdate, hslug, htitle, hdesc, htags⟩ :=
    validatePosts_ok_mem _ _ hv v hvmem2
  have hkeep : p.draft ≠ some true := by
    have h2 := (List.mem_filter.mp hpmem).2
    simpa [keepPost] using h2
  exact ⟨p, (List.mem_filter.mp hpmem).1, hkeep,
    by simp [toItem, hdate], by simp [toItem, htitle],
    by simp [toItem, hdesc], by simp [toItem, hslug], by simp [toItem, htags]⟩

/-- Witness for C3 at the concrete input `[samplePostA, samplePostDraft]`. -/
theorem C3_no_draft_entries_witness :
    GET [samplePostA, samplePostDraft] none = Except.ok sampleDocA ∧
    ∀ e ∈ sampleDocA.items, ∃ p ∈ [samplePostA, samplePostDraft],
      p.draft ≠ some true ∧
      p.pubDate = some e.pubDate ∧ e.title = p.title ∧
      e.description = p.description ∧
      e.link = "/blog/" ++ p.slug ++ "/" ∧ e.categories = p.tags :=
  ⟨rfl, C3_no_draft_entries [samplePostA, samplePostDraft] none sampleDocA rfl⟩

/-- C4: the entries of the output are ordered by publication date
descending: any entry preceding another carries a date at least as
recent. -/
theorem C4_sorted_desc (posts : List Post) (site : Option String)
    (doc : FeedDocument) (h : GET posts site = Except.ok doc) :
    doc.items.Pairwise (fun e1 e2 => e2.pubDate ≤ e1.pubDate) := by
  obtain ⟨valid, hv, rfl⟩ := (GET_ok_iff posts site doc).mp h
  have hsorted : (sortPosts valid).Pairwise pubDateDescLE :=
    List.sorted_insertionSort pubDateDescLE valid
  exact hsorted.map toItem (fun a b hab => hab)

/-- Witness for C4 at the concrete input `[samplePostA, samplePostB]`. -/
theorem C4_sorted_desc_witness :
    GET [samplePostA, samplePostB] none = Except.ok sampleDocAB ∧
    sampleDocAB.items.Pairwise (fun e1 e2 => e2.pubDate ≤ e1.pubDate) :=
  ⟨rfl, C4_sorted_desc [samplePostA, samplePostB] none sampleDocAB rfl⟩

/-- C5: the sort is stable: for any date `d`, the items of the output
carrying `d` are exactly the projections, in the original content-store
order, of the retained posts carrying `d`. -/
theorem C5_stable_ties (posts : List Post) (site : Option String)
    (valid : List ValidPost) (doc : FeedDocument) (d : Int)
    (hvalid : validatePosts (posts.filter keepPost) = Except.ok valid)
    (h : GET posts site = Except.ok doc) :
    doc.items.filter (fun e => decide (e.pubDate = d)) =
      (valid.filter (fun v => decide (v.pubDate = d))).map toItem := by
  obtain ⟨valid2, hv2, rfl⟩ := (GET_ok_iff posts site doc).mp h
  rw [hvalid] at hv2
  injection hv2 with hv2
  subst hv2
  dsimp only
  rw [List.filter_map]
  have hcomp : ((fun e : RSSItem => decide (e.pubDate = d)) ∘ toItem) =
      (fun v : ValidPost => decide (v.pubDate = d)) := by
    funext v
    simp [toItem, Function.comp]
  rw [hcomp, sortPosts_filter_eq]

/-- Witness for C5 at the concrete tie input `[samplePostX, samplePostY]`
with shared date 100: source order is preserved. -/
theorem C5_stable_ties_witness :
    validatePosts ([samplePostX, samplePostY].filter keepPost) =
      Except.ok sampleValidXY ∧
    GET [samplePostX, samplePostY] none = Except.ok sampleDocXY ∧
    sampleDocXY.items.filter (fun e => decide (e.pubDate = 100)) =
      (sampleValidXY.filter (fun v => decide (v.pubDate = 100))).map toItem :=
  ⟨rfl, rfl,
   C5_stable_ties [samplePostX, samplePostY] none sampleValidXY sampleDocXY 100
     rfl rfl⟩

/-- C6: every retained post appears in the output as an entry that copies
its title, description and publication date, whose link is exactly
`/blog/{slug}/`, and whose categories are the tags of the post. -/
theorem C6_projection (posts : List Post) (site : Option String)
    (doc : FeedDocument) (h : GET posts site = Except.ok doc) :
    ∀ p ∈ posts, p.draft ≠ some true →
      ∃ e ∈ doc.items, e.title = p.title ∧ e.description = p.description ∧
        p.pubDate = some e.pubDate ∧
        e.link = "/blog/" ++ p.slug ++ "/" ∧ e.categories = p.tags := by
  obtain ⟨valid, hv, rfl⟩ := (GET_ok_iff posts site doc).mp h
  intro p hp hdraft
  have hpf : p ∈ posts.filter keepPost :=
    List.mem_filter.mpr ⟨hp, by simpa [keepPost] using hdraft⟩
  obtain ⟨v, hvmem, hdate, hslug, htitle, hdesc, htags⟩ :=
    validatePosts_mem_ok _ _ hv p hpf
  have hvmem2 : toItem v ∈ (sortPosts valid).map toItem :=
    List.mem_map_of_mem toItem ((List.mem_insertionSort pubDateDescLE).mpr hvmem)
  exact ⟨toItem v, hvmem2, by simp [toItem, htitle], by simp [toItem, hdesc],
    by simp [toItem, hdate], by simp [toItem, hslug], by simp [toItem, htags]⟩

/-- Witness for C6 at the concrete input `[samplePostA]`. -/
theorem C6_projection_witness :
    GET [samplePostA] none = Except.ok sampleDocA ∧
    ∀ p ∈ [samplePostA], p.draft ≠ some true →
      ∃ e ∈ sampleDocA.items, e.title = p.title ∧
        e.description = p.description ∧
        p.pubDate = some e.pubDate ∧
        e.link = "/blog/" ++ p.slug ++ "/" ∧ e.categories = p.tags :=
  ⟨rfl, C6_projection [samplePostA] none sampleDocA rfl⟩

/-- C7: the transformation is deterministic: two calls with the same posts
and the same site yield the same result. -/
theorem C7_deterministic (posts1 posts2 : List Post)
    (site1 site2 : Option String) (hp : posts1 = posts2)
    (hs : site1 = site2) :
    GET posts1 site1 = GET posts2 site2 := by
  rw [hp, hs]

/-- Witness for C7 at the concrete input `[samplePostA]`. -/
theorem C7_deterministic_witness :
    GET [samplePostA] none = GET [samplePostA] none :=
  C7_deterministic [samplePostA] [samplePostA] none none rfl rfl

/-- C8: with zero non-draft posts the call succeeds: the item sequence is
empty and the feed metadata is the fixed configuration. -/
theorem C8_empty_feed (posts : List Post) (site : Option String)
    (h : ∀ p ∈ posts, p.draft = some true) :
    GET posts site = Except.ok
      { title := feedTitle
        description := feedDescription
        site := resolveSite site
        items := []
        customData := feedCustomData } := by
  have hfilter : posts.filter keepPost = [] := by
    apply List.filter_eq_nil_iff.mpr
    intro p hp
    simp [keepPost, h p hp]
  simp [GET, hfilter, validatePosts, sortPosts, List.insertionSort]

/-- Witness for C8 at the concrete input `[samplePostDraft]`. -/
theorem C8_empty_feed_witness :
    (∀ p ∈ [samplePostDraft], p.draft = some true) ∧
    GET [samplePostDraft] none = Except.ok
      { title := feedTitle
        description := feedDescription
        site := resolveSite none
        items := []
        customData := feedCustomData } :=
  ⟨by decide, C8_empty_feed [samplePostDraft] none (by decide)⟩

/-- C9: the output feed metadata is fixed by configuration and independent
of the posts: constant title, constant description, and the language tag
`en-us` carried in the custom data. -/
theorem C9_metadata (posts : List Post) (site : Option String)
    (doc : FeedDocument) (h : GET posts site = Except.ok doc) :
    doc.title = "Lucas William Bateson - Blog" ∧
    doc.description =
      "Personal blog and project log - thoughts on development, technology, and building things." ∧
    doc.customData = "<language>en-us</language>" := by
  obtain ⟨valid, hv, rfl⟩ := (GET_ok_iff posts site doc).mp h
  exact ⟨rfl, rfl, rfl⟩

/-- Witness for C9 at the concrete input `[]`. -/
theorem C9_metadata_witness :
    GET [] none = Except.ok sampleDocEmpty ∧
    (sampleDocEmpty.title = "Lucas William Bateson - Blog" ∧
     sampleDocEmpty.description =
       "Personal blog and project log - thoughts on development, technology, and building things." ∧
     sampleDocEmpty.customData = "<language>en-us</language>") :=
  ⟨rfl, C9_metadata [] none sampleDocEmpty rfl⟩

/-- C10: the number of output entries equals the number of input posts
whose draft flag is not `true`: each such post contributes exactly one
entry. -/
theorem C10_entry_count (posts : List Post) (site : Option String)
    (doc : FeedDocument) (h : GET posts site = Except.ok doc) :
    doc.items.length =
      (posts.filter (fun p => decide (p.draft ≠ some true))).length := by
  obtain ⟨valid, hv, rfl⟩ := (GET_ok_iff posts site doc).mp h
  simp only [List.length_map, sortPosts, List.length_insertionSort]
  exact validatePosts_ok_length _ _ hv

/-- Witness for C10 at the concrete input
`[samplePostA, samplePostB, samplePostDraft]`: three posts, two entries. -/
theorem C10_entry_count_witness :
    GET [samplePostA, samplePostB, samplePostDraft] none =
      Except.ok sampleDocAB ∧
    sampleDocAB.items.length =
      ([samplePostA, samplePostB, samplePostDraft].filter
        (fun p => decide (p.draft ≠ some true))).length :=
  ⟨rfl, C10_entry_count [samplePostA, samplePostB, samplePostDraft] none
    sampleDocAB rfl⟩

end RssFeed
